import Mathlib

/-!
Verification of the DEN editor extension against its specification.

This file is a shallow embedding of the TypeScript sources:

* `src/configManager.ts` — configuration loading, validation-with-defaults,
  per-workspace caching and cache invalidation;
* `src/git/gitManager.ts` — repository snapshot and branch switching;
* `src/git/repositoryHostAPI.ts` — per-host normalization of pull requests;
* `src/git/pullRequestMonitor.ts` — the poll/diff/notify loop;
* `src/extension.ts` — `getGitConfig` (settings with defaults).

External collaborators (filesystem, YAML/JSON decoders, the Git CLI, the
host HTTP APIs, the timer runtime) are modelled as explicit oracles /
environment records passed to the embedded functions; the functions
themselves are translated statement by statement from the sources.
-/

namespace Den

/-- A decoded YAML/JSON value, as produced by `JSON.parse` / `yaml.load`
(the `unknown` reaching `ConfigManager.validateConfig`). -/
inductive JValue where
  | null
  | bool (b : Bool)
  | num (n : Int)
  | str (s : String)
  | arr (elems : List JValue)
  | obj (fields : List (String × JValue))
deriving Repr, Inhabited

/-- JavaScript truthiness of a decoded value (`!config` is its negation). -/
def truthy : JValue → Bool
  | .null => false
  | .bool b => b
  | .num n => n != 0
  | .str s => s != ""
  | .arr _ => true
  | .obj _ => true

/-- Whether `typeof v === 'object'` holds for a decoded value
(in JavaScript this is true for `null`, arrays and plain objects). -/
def typeofObject : JValue → Bool
  | .null => true
  | .arr _ => true
  | .obj _ => true
  | _ => false

/-- The guard `config && typeof config === 'object'` of
`ConfigManager.validateConfig` (true exactly for arrays and objects). -/
def isObjLike (v : JValue) : Bool := truthy v && typeofObject v

/-- Property access `configObj.k`: a field of an object, `undefined`
(modelled as `none`) otherwise. -/
def getField : JValue → String → Option JValue
  | .obj fields, k => (fields.find? (fun e => e.1 == k)).map (fun e => e.2)
  | _, _ => none

/-- The resolved configuration record (`DENConfig` in `configManager.ts`).
`tools` keeps the raw array elements and `settings` the raw object-like
value, as the TypeScript casts do at runtime. -/
structure DENConfig where
  name : String
  version : String
  environment : String
  tools : List JValue
  settings : JValue
deriving Repr

/-- Embeds `ConfigManager.validateConfig`: coercion-with-defaults of a decoded
value.  Non-object-like values yield `none`; otherwise every field is
defaulted exactly as in the source. -/
def validateConfig (config : JValue) : Option DENConfig :=
  if !(isObjLike config) then none
  else some {
    name := (match getField config "name" with
      | some (.str s) => s
      | _ => "Default Environment"),
    version := (match getField config "version" with
      | some (.str s) => s
      | _ => "1.0.0"),
    environment := (match getField config "environment" with
      | some (.str s) => s
      | _ => "development"),
    tools := (match getField config "tools" with
      | some (.arr xs) => xs
      | _ => []),
    settings := (match getField config "settings" with
      | some v => if isObjLike v then v else .obj []
      | none => .obj []) }

/-- The fixed candidate filename priority of `ConfigManager`. -/
def configFileNames : List String :=
  ["den.yml", "den.yaml", "den.json", ".den.yml", ".den.yaml", ".den.json"]

/-- Embeds `cacheTimeout` of `ConfigManager` (milliseconds). -/
def cacheTimeout : Nat := 30000

/-- One cache entry: `{ config, timestamp }`. -/
structure CacheEntry where
  config : DENConfig
  timestamp : Nat
deriving Repr

/-- The mutable state of a `ConfigManager`: its `configCache` map,
modelled as an association list keyed by the cache key string. -/
structure ConfigManagerState where
  configCache : List (String × CacheEntry)
deriving Repr

/-- Embeds `ConfigManager.clearCache`: drops all cache entries. -/
def clearCache (st : ConfigManagerState) : ConfigManagerState :=
  { st with configCache := [] }

/-- Embeds `Map.get` on the cache (keys are unique, as `Map` guarantees). -/
def cacheGet : List (String × CacheEntry) → String → Option CacheEntry
  | [], _ => none
  | e :: rest, k => if e.1 == k then some e.2 else cacheGet rest k

/-- Embeds `Map.set` on the cache: replaces the entry for an existing key in
place, otherwise appends (JavaScript `Map` insertion-order semantics). -/
def cacheSet : List (String × CacheEntry) → String → CacheEntry →
    List (String × CacheEntry)
  | [], k, v => [(k, v)]
  | e :: rest, k, v =>
    if e.1 == k then (k, v) :: rest else e :: cacheSet rest k v

/-- The external world seen by the config loader: file existence probes,
file reads (`none` models a throwing `readFileSync`), and the two
decoders (`none` models a parse exception). -/
structure FileSystem where
  fileExists : String → Bool
  readFile : String → Option String
  parseJson : String → Option JValue
  parseYaml : String → Option JValue

/-- Embeds `path.join(workspacePath, fileName)` for the flat candidate names used
here. -/
def pathJoin (a b : String) : String := a ++ "/" ++ b

/-- Embeds `path.extname`, modelled for the paths this loader builds: the last
dot-suffix of the basename, empty for a bare leading-dot name. -/
def extname (p : String) : String :=
  let base := (p.splitOn "/").getLastD ""
  match base.splitOn "." with
  | [] => ""
  | [_] => ""
  | first :: rest =>
    if first == "" && rest.length == 1 then ""
    else "." ++ rest.getLastD ""

/-- Embeds `ConfigManager.loadConfigFromPath`: read the file, decode by
extension, coerce with defaults; every failure is absorbed into `none`. -/
def loadConfigFromPath (fs : FileSystem) (filePath : String) : Option DENConfig :=
  match fs.readFile filePath with
  | none => none
  | some content =>
    let ext := (extname filePath).toLower
    if ext == ".json" then
      match fs.parseJson content with
      | none => none
      | some v => validateConfig v
    else if ext == ".yml" || ext == ".yaml" then
      match fs.parseYaml content with
      | none => none
      | some v => validateConfig v
    else none

/-- The candidate loop of `ConfigManager.findConfigInWorkspace`: walk the
filename priority list; the second component records every path probed
with `fs.existsSync` (the disk accesses performed). -/
def searchConfigFiles (fs : FileSystem) (workspacePath : String) :
    List String → Option DENConfig × List String
  | [] => (none, [])
  | fileName :: rest =>
    let filePath := pathJoin workspacePath fileName
    if fs.fileExists filePath then
      match loadConfigFromPath fs filePath with
      | some config => (some config, [filePath])
      | none =>
        let (r, probes) := searchConfigFiles fs workspacePath rest
        (r, filePath :: probes)
    else
      let (r, probes) := searchConfigFiles fs workspacePath rest
      (r, filePath :: probes)

/-- Embeds `ConfigManager.findConfigInWorkspace`: cache-first lookup with the
TTL check, falling back to the candidate loop; a successful disk load is
memoized with the current timestamp.  Returns (result, new state, paths
probed on disk); a cache hit probes nothing. -/
def findConfigInWorkspace (st : ConfigManagerState) (fs : FileSystem)
    (now : Nat) (workspacePath : String) :
    Option DENConfig × ConfigManagerState × List String :=
  let cacheKey := "workspace:" ++ workspacePath
  let fromDisk : Option DENConfig × ConfigManagerState × List String :=
    match searchConfigFiles fs workspacePath configFileNames with
    | (some config, probes) =>
      (some config,
       { st with configCache := cacheSet st.configCache cacheKey ⟨config, now⟩ },
       probes)
    | (none, probes) => (none, st, probes)
  match cacheGet st.configCache cacheKey with
  | some cached =>
    if now - cached.timestamp < cacheTimeout then (some cached.config, st, [])
    else fromDisk
  | none => fromDisk

/-! ## Git layer (`gitTypes.ts`, `gitManager.ts`) -/

/-- The host type tag of a remote (`'github' | 'gitlab' | 'bitbucket' | 'other'`). -/
inductive HostType where
  | github
  | gitlab
  | bitbucket
  | other
deriving Repr, DecidableEq

/-- Embeds `GitRemote`: the TypeScript optional `owner` / `repository` strings are
modelled as `String`, with `""` standing for both `undefined` and the
empty string (the source only ever tests them for JavaScript falsiness). -/
structure GitRemote where
  name : String
  url : String
  type : HostType
  owner : String
  repository : String
deriving Repr, DecidableEq

/-- Embeds `GitCommit` (the `Date` is kept as its source timestamp string). -/
structure GitCommit where
  hash : String
  message : String
  author : String
  date : String
deriving Repr, DecidableEq

/-- Embeds `GitStatus`. -/
structure GitStatus where
  isClean : Bool
  stagedFiles : Nat
  modifiedFiles : Nat
  untrackedFiles : Nat
  ahead : Nat
  behind : Nat
deriving Repr, DecidableEq

/-- Embeds `GitRepositoryInfo`. -/
structure GitRepositoryInfo where
  root : String
  currentBranch : String
  remotes : List GitRemote
  lastCommit : GitCommit
  status : GitStatus
  isGitRepository : Bool
deriving Repr, DecidableEq

/-- Embeds `RepositoryHostInfo`. -/
structure RepositoryHostInfo where
  type : HostType
  owner : String
  repository : String
  baseUrl : String
  apiUrl : String
deriving Repr, DecidableEq

/-- The mutable state of a `GitManager`: whether `this.git` is non-null,
the `baseDir` it was created for, and the stored snapshot. -/
structure GitManagerState where
  git : Bool
  baseDir : String
  repositoryInfo : Option GitRepositoryInfo
deriving Repr, DecidableEq

/-- The four per-field results gathered inside `refreshRepositoryInfo`
(each helper already absorbs its own failures into a zero value, so the
oracle provides plain values). -/
structure GitQueries where
  currentBranch : String
  remotes : List GitRemote
  lastCommit : GitCommit
  status : GitStatus
deriving Repr, DecidableEq

/-- Embeds `GitManager.refreshRepositoryInfo`: assembles a wholesale snapshot
from the four query results and stores it; `none` when no Git handle. -/
def refreshRepositoryInfo (st : GitManagerState) (q : GitQueries) :
    Option GitRepositoryInfo × GitManagerState :=
  if !st.git then (none, st)
  else
    let info : GitRepositoryInfo :=
      { root := st.baseDir
        currentBranch := q.currentBranch
        remotes := q.remotes
        lastCommit := q.lastCommit
        status := q.status
        isGitRepository := true }
    (some info, { st with repositoryInfo := some info })

/-- Embeds `GitManager.switchBranch`: `checkoutResult` is the outcome of
`git.checkout(branchName)` (`Except.error` models a throw).  On success
the snapshot is refreshed and `true` returned; a throw is caught, leaves
the state untouched and returns `false`. -/
def switchBranch (st : GitManagerState) (checkoutResult : Except String Unit)
    (q : GitQueries) : Bool × GitManagerState :=
  if !st.git then (false, st)
  else
    match checkoutResult with
    | .error _ => (false, st)
    | .ok _ => (true, (refreshRepositoryInfo st q).2)

/-! ## Host client (`repositoryHostAPI.ts`) -/

/-- One open pull/merge request (`PullRequest` in `gitTypes.ts`); the two
`Date` fields keep the source timestamp strings the `Date` was built from. -/
structure PullRequest where
  id : Int
  title : String
  url : String
  branch : String
  author : String
  createdAt : String
  updatedAt : String
  isDraft : Bool
  repository : String
deriving Repr, DecidableEq

/-- The fields of one element of a Bitbucket `pullrequests` response that
`getBitbucketPullRequests` destructures. -/
structure BitbucketPR where
  id : Int
  title : String
  href : String
  destinationBranch : String
  authorUsername : String
  createdOn : String
  updatedOn : String
deriving Repr, DecidableEq

/-- Embeds `RepositoryHostAPI.getBitbucketPullRequests`: `response` is the
decoded `values` array of the HTTP response (`none` models a network or
decode failure, absorbed into `[]`); items are filtered by the branch
allow-list and normalized, with `isDraft` hard-coded to `false`. -/
def getBitbucketPullRequests (hostInfo : RepositoryHostInfo)
    (branches : List String) (response : Option (List BitbucketPR)) :
    List PullRequest :=
  match response with
  | none => []
  | some values =>
    (values.filter (fun pr => branches.contains pr.destinationBranch)).map
      (fun pr =>
        { id := pr.id
          title := pr.title
          url := pr.href
          branch := pr.destinationBranch
          author := pr.authorUsername
          createdAt := pr.createdOn
          updatedAt := pr.updatedOn
          isDraft := false
          repository := hostInfo.owner ++ "/" ++ hostInfo.repository })

/-! ## Watcher (`pullRequestMonitor.ts`) and settings (`extension.ts`) -/

/-- Embeds `GitConfig` (`gitTypes.ts`). -/
structure GitConfig where
  enabled : Bool
  branches : List String
  pollingInterval : Nat
  showNotifications : Bool
  includeDraftPRs : Bool
deriving Repr, DecidableEq

/-- The raw `den.git.*` settings as stored by the host application
(`none` = unset, so `config.get(key, default)` falls back). -/
structure GitSettings where
  enabled : Option Bool
  branches : Option (List String)
  pollingInterval : Option Nat
  showNotifications : Option Bool
  includeDraftPRs : Option Bool
deriving Repr

/-- Embeds `getGitConfig` in `extension.ts`: each setting read with its default. -/
def getGitConfig (s : GitSettings) : GitConfig :=
  { enabled := s.enabled.getD true
    branches := s.branches.getD ["develop", "test", "master", "main"]
    pollingInterval := s.pollingInterval.getD 300000
    showNotifications := s.showNotifications.getD true
    includeDraftPRs := s.includeDraftPRs.getD false }

/-- An active interval timer of the runtime: its handle and the interval
it was registered with. -/
structure Timer where
  id : Nat
  interval : Nat
deriving Repr, DecidableEq

/-- The timer runtime: the registry of currently active interval timers. -/
structure TimerSystem where
  nextId : Nat
  active : List Timer
deriving Repr, DecidableEq

/-- Embeds `setInterval(cb, interval)`: registers a new timer, returns its handle. -/
def setIntervalM (ts : TimerSystem) (interval : Nat) : Nat × TimerSystem :=
  (ts.nextId,
   { nextId := ts.nextId + 1, active := ts.active ++ [⟨ts.nextId, interval⟩] })

/-- Embeds `clearInterval(handle)`: deactivates the timer with that handle. -/
def clearIntervalM (ts : TimerSystem) (handle : Nat) : TimerSystem :=
  { ts with active := ts.active.filter (fun t => t.id != handle) }

/-- The per-remote-name history map `lastKnownPRs`. -/
abbrev PRMap := List (String × List PullRequest)

/-- Embeds `Map.get` (`none` = no entry for that remote name). -/
def prMapGet : PRMap → String → Option (List PullRequest)
  | [], _ => none
  | e :: rest, k => if e.1 == k then some e.2 else prMapGet rest k

/-- Embeds `Map.set`: wholesale replacement of the entry for an existing key,
appending otherwise (JavaScript `Map` insertion-order semantics). -/
def prMapSet : PRMap → String → List PullRequest → PRMap
  | [], k, v => [(k, v)]
  | e :: rest, k, v =>
    if e.1 == k then (k, v) :: rest else e :: prMapSet rest k v

/-- The mutable state of a `PullRequestMonitor`: the stored timer handle
(`pollingInterval` field), the history map, and the current config. -/
structure MonitorState where
  pollingInterval : Option Nat
  lastKnownPRs : PRMap
  config : GitConfig
deriving Repr, DecidableEq

/-- Embeds `PullRequestMonitor.startMonitoring`: no-op when disabled; otherwise
registers the recurring timer at `config.pollingInterval` and stores its
handle.  (The un-awaited initial `checkForNewPullRequests()` it fires is
an asynchronous event, modelled by a separate application of
`checkForNewPullRequests`.) -/
def startMonitoring (st : MonitorState) (ts : TimerSystem) :
    MonitorState × TimerSystem :=
  if !st.config.enabled then (st, ts)
  else
    let (handle, ts') := setIntervalM ts st.config.pollingInterval
    ({ st with pollingInterval := some handle }, ts')

/-- Embeds `PullRequestMonitor.stopMonitoring`: clears the stored timer, if any. -/
def stopMonitoring (st : MonitorState) (ts : TimerSystem) :
    MonitorState × TimerSystem :=
  match st.pollingInterval with
  | some handle => ({ st with pollingInterval := none }, clearIntervalM ts handle)
  | none => (st, ts)

/-- Embeds `PullRequestMonitor.updateConfig`: swap the config, then start or
stop according to the new `enabled` flag. -/
def updateConfig (st : MonitorState) (ts : TimerSystem) (newConfig : GitConfig) :
    MonitorState × TimerSystem :=
  let st' := { st with config := newConfig }
  if st'.config.enabled then startMonitoring st' ts else stopMonitoring st' ts

/-- Embeds `PullRequestMonitor.dispose`: stop the timer and clear the history. -/
def disposeMonitor (st : MonitorState) (ts : TimerSystem) :
    MonitorState × TimerSystem :=
  let (st', ts') := stopMonitoring st ts
  ({ st' with lastKnownPRs := [] }, ts')

/-- Embeds `PullRequestMonitor.getApiUrl`. -/
def getApiUrl : HostType → String
  | .github => "https://api.github.com"
  | .gitlab => "https://gitlab.com/api/v4"
  | .bitbucket => "https://api.bitbucket.org/2.0"
  | .other => ""

/-- The `hostInfo` object literal built for a remote inside the monitor:
`baseUrl` is `remote.url.split('/').slice(0, -1).join('/')`. -/
def hostInfoOfRemote (remote : GitRemote) : RepositoryHostInfo :=
  { type := remote.type
    owner := remote.owner
    repository := remote.repository
    baseUrl := String.intercalate "/" ((remote.url.splitOn "/").dropLast)
    apiUrl := getApiUrl remote.type }

/-- Embeds `PullRequestMonitor.findNewPullRequests`: with an empty previous list
the whole current list is returned; otherwise the current items whose id
is not among the previous ids. -/
def findNewPullRequests (lastKnown current : List PullRequest) :
    List PullRequest :=
  if lastKnown.length == 0 then current
  else
    let lastKnownIds := lastKnown.map (fun pr => pr.id)
    current.filter (fun pr => !(lastKnownIds.contains pr.id))

/-- One `showInformationMessage(message, action)` emission. -/
structure Notification where
  message : String
  action : String
deriving Repr, DecidableEq

/-- Embeds `PullRequestMonitor.showNewPullRequestNotifications`: one single-item
notification (direct "View PR" action) for exactly one new item, one
count summary ("View All") otherwise. -/
def showNewPullRequestNotifications (newPRs : List PullRequest) : Notification :=
  match newPRs with
  | [pr] => ⟨"New pull request: " ++ pr.title, "View PR"⟩
  | _ => ⟨toString newPRs.length ++ " new pull requests found", "View All"⟩

/-- The external world of one poll tick: the repository snapshot obtained
from `gitManager.getRepositoryInfo()` and the host client
`repositoryAPI.getPullRequests(hostInfo, branches)` as an oracle. -/
structure TickEnv where
  repoInfo : Option GitRepositoryInfo
  fetch : RepositoryHostInfo → List String → List PullRequest

/-- The body of the per-remote loop of `checkForNewPullRequests`:
skips unusable remotes, fetches, diffs against the history for the
remote's name, emits at most one notification, and replaces the stored
history wholesale.  The accumulator is (history map, notifications
emitted so far in this tick). -/
def processRemote (cfg : GitConfig) (fetch : RepositoryHostInfo → List String → List PullRequest)
    (acc : PRMap × List Notification) (remote : GitRemote) :
    PRMap × List Notification :=
  if remote.type == .other || remote.owner == "" || remote.repository == "" then acc
  else
    let currentPRs := fetch (hostInfoOfRemote remote) cfg.branches
    let lastKnown := (prMapGet acc.1 remote.name).getD []
    let newPRs := findNewPullRequests lastKnown currentPRs
    let notifs :=
      if newPRs.length > 0 && cfg.showNotifications then
        acc.2 ++ [showNewPullRequestNotifications newPRs]
      else acc.2
    (prMapSet acc.1 remote.name currentPRs, notifs)

/-- Embeds `PullRequestMonitor.checkForNewPullRequests` (one poll tick): skips
entirely when the snapshot is absent or has no remotes; otherwise runs
the per-remote loop over the history map.  Returns the new monitor state
and the notifications emitted during the tick. -/
def checkForNewPullRequests (st : MonitorState) (env : TickEnv) :
    MonitorState × List Notification :=
  match env.repoInfo with
  | none => (st, [])
  | some repoInfo =>
    if repoInfo.remotes.length == 0 then (st, [])
    else
      let (m, notifs) :=
        repoInfo.remotes.foldl (processRemote st.config env.fetch)
          (st.lastKnownPRs, [])
      ({ st with lastKnownPRs := m }, notifs)

/-- Embeds `PullRequestMonitor.getCurrentPullRequests`: fetches the current
lists for all usable remotes and concatenates them; it reads but never
writes the monitor state, which is returned unchanged. -/
def getCurrentPullRequests (st : MonitorState) (env : TickEnv) :
    List PullRequest × MonitorState :=
  match env.repoInfo with
  | none => ([], st)
  | some repoInfo =>
    if repoInfo.remotes.length == 0 then ([], st)
    else
      let allPRs :=
        repoInfo.remotes.foldl (fun acc remote =>
          if remote.type == .other || remote.owner == "" || remote.repository == "" then acc
          else acc ++ env.fetch (hostInfoOfRemote remote) st.config.branches) []
      (allPRs, st)

/-- Modelled from the spec: the clamping of the polling interval to
1 minute – 30 minutes that §4.4 / §6 describe ("clamped 60 000–1 800 000").
No such clamp exists in the sources; this definition exists to be
compared with what the code actually does. -/
def clampSpec (lo hi x : Nat) : Nat := max lo (min x hi)

/-! ## Concrete fixtures (used by witnesses and counterexamples) -/

/-- A pull request with the given id and title; all other fields fixed. -/
def mkPR (i : Int) (t : String) : PullRequest :=
  { id := i, title := t, url := "https://example.com/pr"
    branch := "develop", author := "alice", createdAt := "2024-01-01"
    updatedAt := "2024-01-02", isDraft := false, repository := "acme/widgets" }

def remoteOrigin : GitRemote :=
  { name := "origin", url := "git@github.com:acme/widgets.git"
    type := .github, owner := "acme", repository := "widgets" }

def remoteUpstream : GitRemote :=
  { name := "upstream", url := "git@github.com:globex/widgets.git"
    type := .github, owner := "globex", repository := "widgets" }

def commitDemo : GitCommit :=
  { hash := "abc123", message := "init", author := "alice", date := "2024-01-01" }

def statusDemo : GitStatus :=
  { isClean := true, stagedFiles := 0, modifiedFiles := 0
    untrackedFiles := 0, ahead := 0, behind := 0 }

/-- A repository snapshot over the given remotes. -/
def repoInfoWith (remotes : List GitRemote) : GitRepositoryInfo :=
  { root := "/w", currentBranch := "develop", remotes := remotes
    lastCommit := commitDemo, status := statusDemo, isGitRepository := true }

def cfgOn : GitConfig :=
  { enabled := true, branches := ["develop", "test", "master", "main"]
    pollingInterval := 300000, showNotifications := true, includeDraftPRs := false }

def prsThree : List PullRequest := [mkPR 1 "A", mkPR 2 "B", mkPR 3 "C"]

/-- Tick environment for a first poll: one GitHub remote, three open PRs. -/
def envFirstPoll : TickEnv :=
  { repoInfo := some (repoInfoWith [remoteOrigin]), fetch := fun _ _ => prsThree }

/-- A freshly constructed monitor: empty history. -/
def stFresh : MonitorState :=
  { pollingInterval := none, lastKnownPRs := [], config := cfgOn }

/-- Watcher state between ticks: both remotes already have history. -/
def stTwoRemotes : MonitorState :=
  { pollingInterval := none
    lastKnownPRs := [("origin", [mkPR 1 "A0"]), ("upstream", [mkPR 10 "B0"])]
    config := cfgOn }

/-- Tick environment where each of the two remotes has exactly one new PR. -/
def envTwoRemotes : TickEnv :=
  { repoInfo := some (repoInfoWith [remoteOrigin, remoteUpstream])
    fetch := fun hi _ =>
      if hi.owner == "acme" then [mkPR 1 "A0", mkPR 2 "A1"]
      else [mkPR 10 "B0", mkPR 11 "B1"] }

/-- A monitor that is already polling: handle 0 is stored and active. -/
def stPolling : MonitorState :=
  { pollingInterval := some 0
    lastKnownPRs := [("origin", [mkPR 1 "A"])]
    config := cfgOn }

/-- The timer registry while `stPolling` is active. -/
def tsOne : TimerSystem := { nextId := 1, active := [⟨0, 300000⟩] }

/-- A reconfiguration that keeps monitoring enabled, new interval. -/
def cfgFaster : GitConfig :=
  { enabled := true, branches := ["develop"]
    pollingInterval := 600000, showNotifications := true, includeDraftPRs := false }

/-- Settings with a 1-second polling interval (below the documented 1m
floor). -/
def settingsTiny : GitSettings :=
  { enabled := some true, branches := none, pollingInterval := some 1000
    showNotifications := none, includeDraftPRs := none }

/-- An idle monitor configured from `settingsTiny`. -/
def stIdleTiny : MonitorState :=
  { pollingInterval := none, lastKnownPRs := [], config := getGitConfig settingsTiny }

def tsEmpty : TimerSystem := { nextId := 0, active := [] }

/-- A Git manager holding a repository handle and a prior snapshot. -/
def gmWithSnapshot : GitManagerState :=
  { git := true, baseDir := "/w"
    repositoryInfo := some (repoInfoWith [remoteOrigin]) }

/-- Query results as seen after checking out branch "develop2". -/
def queriesAfterSwitch : GitQueries :=
  { currentBranch := "develop2", remotes := [remoteOrigin]
    lastCommit := commitDemo, status := statusDemo }

/-- A raw Bitbucket response element. -/
def bbDemo : BitbucketPR :=
  { id := 7, title := "Fix crash", href := "https://bitbucket.org/acme/widgets/pull-requests/7"
    destinationBranch := "develop", authorUsername := "alice"
    createdOn := "2024-01-01", updatedOn := "2024-01-02" }

def hostBB : RepositoryHostInfo :=
  { type := .bitbucket, owner := "acme", repository := "widgets"
    baseUrl := "https://bitbucket.org", apiUrl := "https://api.bitbucket.org/2.0" }

/-- The normalized record `getBitbucketPullRequests` produces for `bbDemo`. -/
def bbDemoNormalized : PullRequest :=
  { id := 7, title := "Fix crash", url := "https://bitbucket.org/acme/widgets/pull-requests/7"
    branch := "develop", author := "alice", createdAt := "2024-01-01"
    updatedAt := "2024-01-02", isDraft := false, repository := "acme/widgets" }

/-- A decoded object carrying only a name field. -/
def vNameOnly : JValue := JValue.obj [("name", JValue.str "Foo")]

def entryDemo : CacheEntry :=
  { config := ⟨"Cached", "1.0.0", "development", [], JValue.obj []⟩
    timestamp := 990 }

/-- A config manager whose cache holds a fresh entry for workspace /w. -/
def stCached : ConfigManagerState :=
  { configCache := [("workspace:/w", entryDemo)] }

/-- A filesystem with a parseable /w/den.yml. -/
def fsDemo : FileSystem :=
  { fileExists := fun p => p == "/w/den.yml"
    readFile := fun p => if p == "/w/den.yml" then some "name: Foo" else none
    parseJson := fun _ => none
    parseYaml := fun _ => some (JValue.obj [("name", JValue.str "Foo")]) }

end Den

namespace Den

/-! ## Theorems -/

/-- Key update law of the history map: after `Map.set`, `Map.get` on the
same key returns exactly the stored list. -/
theorem prMapGet_prMapSet (m : PRMap) (k : String) (v : List PullRequest) :
    prMapGet (prMapSet m k v) k = some v := by
  induction m with
  | nil => simp [prMapSet, prMapGet]
  | cons e rest ih =>
    simp only [prMapSet]
    split
    · simp [prMapGet]
    · next hne => simp [prMapGet, hne, ih]

/-- The `Set.has` test over a list of ids, phrased as membership. -/
theorem containsId_iff (ids : List Int) (i : Int) :
    ids.contains i = true ↔ i ∈ ids := by
  simp [List.contains_iff_exists_mem_beq]

/-- C2: for a non-empty prior history, an item is reported new by the
poll-tick diff iff it is in the current list and its id occurs nowhere in
the prior list. -/
theorem findNewPullRequests_new_iff (lastKnown current : List PullRequest)
    (h : lastKnown ≠ []) (pr : PullRequest) :
    pr ∈ findNewPullRequests lastKnown current ↔
      pr ∈ current ∧ ∀ q ∈ lastKnown, q.id ≠ pr.id := by
  have hlen : (lastKnown.length == 0) = false := by
    simp [List.length_eq_zero, h]
  simp only [findNewPullRequests, hlen, Bool.false_eq_true, if_false,
    List.mem_filter, Bool.not_eq_true']
  constructor
  · rintro ⟨hc, hb⟩
    refine ⟨hc, fun q hq hEq => ?_⟩
    have hmem : pr.id ∈ lastKnown.map (fun q => q.id) :=
      List.mem_map.mpr ⟨q, hq, hEq⟩
    have := (containsId_iff _ _).mpr hmem
    rw [hb] at this
    exact Bool.false_ne_true this
  · rintro ⟨hc, hid⟩
    refine ⟨hc, ?_⟩
    by_contra hb
    rw [Bool.not_eq_false] at hb
    obtain ⟨q, hq, hEq⟩ := List.mem_map.mp ((containsId_iff _ _).mp hb)
    exact hid q hq hEq

/-- C2 witness: prior ids {1,2}, current ids {2,3}: id 3 is new, id 2 is not. -/
theorem findNewPullRequests_new_iff_witness :
    mkPR 3 "C" ∈ findNewPullRequests [mkPR 1 "A", mkPR 2 "B"] [mkPR 2 "B", mkPR 3 "C"] ∧
    mkPR 2 "B" ∉ findNewPullRequests [mkPR 1 "A", mkPR 2 "B"] [mkPR 2 "B", mkPR 3 "C"] := by
  constructor
  · exact (findNewPullRequests_new_iff _ _ (by decide) (mkPR 3 "C")).mpr (by decide)
  · intro hmem
    exact absurd ((findNewPullRequests_new_iff _ _ (by decide) (mkPR 2 "B")).mp hmem)
      (by decide)

/-- C1 counterexample: a first poll (no prior entry for "origin") that
fetches three open PRs emits a notification ("3 new pull requests
found"), instead of the zero new items / no notification the claim
states; the full current list is stored as history. -/
theorem firstPoll_announces_all :
    (checkForNewPullRequests stFresh envFirstPoll).2 =
      [⟨"3 new pull requests found", "View All"⟩] ∧
    (checkForNewPullRequests stFresh envFirstPoll).2 ≠ [] ∧
    prMapGet (checkForNewPullRequests stFresh envFirstPoll).1.lastKnownPRs "origin" =
      some prsThree := by
  refine ⟨by decide, by decide, by decide⟩

/-- C1 (amended): for a remote with no prior history entry, a poll tick
that fetches a non-empty current list reports the whole current list as
new — emitting one notification for it when notifications are enabled —
and stores the full current list as that remote's history. -/
theorem firstObservation_announces_current (cfg : GitConfig)
    (fetch : RepositoryHostInfo → List String → List PullRequest)
    (m : PRMap) (ns : List Notification) (remote : GitRemote)
    (hskip : (remote.type == HostType.other || remote.owner == "" ||
      remote.repository == "") = false)
    (hprior : prMapGet m remote.name = none)
    (hshow : cfg.showNotifications = true)
    (hne : fetch (hostInfoOfRemote remote) cfg.branches ≠ []) :
    prMapGet (processRemote cfg fetch (m, ns) remote).1 remote.name =
      some (fetch (hostInfoOfRemote remote) cfg.branches) ∧
    (processRemote cfg fetch (m, ns) remote).2 =
      ns ++ [showNewPullRequestNotifications
        (fetch (hostInfoOfRemote remote) cfg.branches)] := by
  have hnew : findNewPullRequests ((prMapGet m remote.name).getD [])
      (fetch (hostInfoOfRemote remote) cfg.branches) =
      fetch (hostInfoOfRemote remote) cfg.branches := by
    rw [hprior]
    simp [findNewPullRequests]
  have hlen : ((fetch (hostInfoOfRemote remote) cfg.branches).length > 0) := by
    cases hfe : fetch (hostInfoOfRemote remote) cfg.branches with
    | nil => exact absurd hfe hne
    | cons a l => simp
  simp only [processRemote, hskip, Bool.false_eq_true, if_false, hnew, hshow,
    Bool.and_true]
  rw [if_pos (by simpa using hlen)]
  exact ⟨prMapGet_prMapSet m remote.name _, rfl⟩

/-- C1 (amended) witness: the first-poll tick over the concrete fixture. -/
theorem firstObservation_announces_current_witness :
    prMapGet (processRemote cfgOn envFirstPoll.fetch ([], []) remoteOrigin).1
      remoteOrigin.name = some prsThree ∧
    (processRemote cfgOn envFirstPoll.fetch ([], []) remoteOrigin).2 =
      [showNewPullRequestNotifications prsThree] := by
  have h := firstObservation_announces_current cfgOn envFirstPoll.fetch [] []
    remoteOrigin (by decide) (by decide) (by decide) (by decide)
  exact h

/-- C5: `getCurrentPullRequests` returns the monitor state unchanged (it
never touches the history map), so a subsequent poll tick diffs exactly
as it would have without the call. -/
theorem getCurrentPullRequests_frame (st : MonitorState) (env : TickEnv) :
    (getCurrentPullRequests st env).2 = st ∧
    ∀ env', checkForNewPullRequests (getCurrentPullRequests st env).2 env' =
      checkForNewPullRequests st env' := by
  have h2 : (getCurrentPullRequests st env).2 = st := by
    unfold getCurrentPullRequests
    cases env.repoInfo with
    | none => rfl
    | some ri =>
      dsimp only
      split <;> rfl
  exact ⟨h2, fun env' => by rw [h2]⟩

/-- C4 counterexample: a tick in which two remotes each contribute one
new item (two new items across all remotes) emits two single-item
notifications — not the single aggregated count-summary notification the
claim states. -/
theorem twoRemotes_two_notifications :
    (checkForNewPullRequests stTwoRemotes envTwoRemotes).2 =
      [⟨"New pull request: A1", "View PR"⟩, ⟨"New pull request: B1", "View PR"⟩] ∧
    (checkForNewPullRequests stTwoRemotes envTwoRemotes).2.length ≠ 1 := by
  exact ⟨by decide, by decide⟩

/-- C4 (amended): notification emission is per remote, not aggregated
across the tick: each remote whose diff is non-empty appends exactly one
notification — single-item style ("View PR") when that remote has
exactly one new item, a count summary ("View All") when it has more. -/
theorem perRemote_notification (cfg : GitConfig)
    (fetch : RepositoryHostInfo → List String → List PullRequest)
    (m : PRMap) (ns : List Notification) (remote : GitRemote)
    (hskip : (remote.type == HostType.other || remote.owner == "" ||
      remote.repository == "") = false)
    (hshow : cfg.showNotifications = true)
    (hne : findNewPullRequests ((prMapGet m remote.name).getD [])
      (fetch (hostInfoOfRemote remote) cfg.branches) ≠ []) :
    (processRemote cfg fetch (m, ns) remote).2 =
      ns ++ [showNewPullRequestNotifications
        (findNewPullRequests ((prMapGet m remote.name).getD [])
          (fetch (hostInfoOfRemote remote) cfg.branches))] ∧
    (∀ pr, findNewPullRequests ((prMapGet m remote.name).getD [])
        (fetch (hostInfoOfRemote remote) cfg.branches) = [pr] →
      showNewPullRequestNotifications
          (findNewPullRequests ((prMapGet m remote.name).getD [])
            (fetch (hostInfoOfRemote remote) cfg.branches)) =
        ⟨"New pull request: " ++ pr.title, "View PR"⟩) ∧
    (∀ p1 p2 rest, findNewPullRequests ((prMapGet m remote.name).getD [])
        (fetch (hostInfoOfRemote remote) cfg.branches) = p1 :: p2 :: rest →
      showNewPullRequestNotifications
          (findNewPullRequests ((prMapGet m remote.name).getD [])
            (fetch (hostInfoOfRemote remote) cfg.branches)) =
        ⟨toString (p1 :: p2 :: rest).length ++ " new pull requests found",
          "View All"⟩) := by
  have hlen : 0 < (findNewPullRequests ((prMapGet m remote.name).getD [])
      (fetch (hostInfoOfRemote remote) cfg.branches)).length :=
    List.length_pos.mpr hne
  refine ⟨?_, ?_, ?_⟩
  · simp only [processRemote, hskip, Bool.false_eq_true, if_false]
    rw [if_pos]
    simp [Bool.and_eq_true, decide_eq_true_eq, hshow, hlen]
  · intro pr hpr
    rw [hpr]
    rfl
  · intro p1 p2 rest hpr
    rw [hpr]
    rfl

/-- C4 (amended) witness: the origin remote of the two-remote fixture
appends exactly its own single-item notification. -/
theorem perRemote_notification_witness :
    (processRemote cfgOn envTwoRemotes.fetch
      (stTwoRemotes.lastKnownPRs, []) remoteOrigin).2 =
      [⟨"New pull request: A1", "View PR"⟩] := by
  have h := perRemote_notification cfgOn envTwoRemotes.fetch
    stTwoRemotes.lastKnownPRs [] remoteOrigin (by decide) (by decide) (by decide)
  rw [h.1]
  decide

/-- C6: the claim holds for the history half but the code breaks the
timer half.  Reconfiguring a monitor that is already polling (stored
handle 0 active) with an enabled config registers a second interval
without clearing the first: two timers are active afterwards, and a
subsequent `stopMonitoring` only clears the new handle, leaving the
first timer running forever.  The history map is preserved. -/
theorem updateConfig_leaks_timer :
    ((updateConfig stPolling tsOne cfgFaster).2.active.length = 2) ∧
    ((updateConfig stPolling tsOne cfgFaster).1.lastKnownPRs =
      stPolling.lastKnownPRs) ∧
    ((stopMonitoring (updateConfig stPolling tsOne cfgFaster).1
        (updateConfig stPolling tsOne cfgFaster).2).2.active =
      [⟨0, 300000⟩]) := by
  exact ⟨by decide, by decide, by decide⟩

/-- C8 counterexample: a configured interval of 1000 ms is used as-is by
the recurring timer; the documented clamp to 1m–30m would have yielded
60000 ms. -/
theorem interval_not_clamped :
    (startMonitoring stIdleTiny tsEmpty).2.active = [⟨0, 1000⟩] ∧
    clampSpec 60000 1800000 1000 = 60000 ∧
    (1000 : Nat) ≠ 60000 := by
  exact ⟨by decide, by decide, by decide⟩

/-- C8 (amended): the recurring timer is registered at exactly the
configured `den.git.pollingInterval` value (default 300000 ms when
unset); no clamping to the documented 60000–1800000 range happens in
code. -/
theorem startMonitoring_interval_unclamped (s : GitSettings)
    (st : MonitorState) (ts : TimerSystem)
    (hcfg : st.config = getGitConfig s)
    (hen : (getGitConfig s).enabled = true) :
    (startMonitoring st ts).2.active =
      ts.active ++ [⟨ts.nextId, s.pollingInterval.getD 300000⟩] := by
  have hen' : s.enabled.getD true = true := by simpa [getGitConfig] using hen
  simp [startMonitoring, hcfg, hen', setIntervalM, getGitConfig]

/-- C8 (amended) witness: the 1000 ms setting lands unchanged in the
registered timer. -/
theorem startMonitoring_interval_unclamped_witness :
    (startMonitoring stIdleTiny tsEmpty).2.active =
      tsEmpty.active ++ [⟨tsEmpty.nextId, settingsTiny.pollingInterval.getD 300000⟩] :=
  startMonitoring_interval_unclamped settingsTiny stIdleTiny tsEmpty rfl rfl

/-- C9: when the checkout throws, `switchBranch` reports `false` and the
whole manager state — in particular the stored snapshot — is unchanged;
when it succeeds, `switchBranch` reports `true` and stores the wholesale
refreshed snapshot assembled from the four queries. -/
theorem switchBranch_spec (st : GitManagerState) (q : GitQueries)
    (hgit : st.git = true) :
    (∀ msg, switchBranch st (.error msg) q = (false, st)) ∧
    switchBranch st (.ok ()) q =
      (true, { st with repositoryInfo := some (
        { root := st.baseDir, currentBranch := q.currentBranch
          remotes := q.remotes, lastCommit := q.lastCommit
          status := q.status, isGitRepository := true } : GitRepositoryInfo) }) := by
  constructor
  · intro msg
    simp [switchBranch, hgit]
  · simp [switchBranch, refreshRepositoryInfo, hgit]

/-- C9 witness: a failed and a successful checkout on the concrete
manager. -/
theorem switchBranch_spec_witness :
    switchBranch gmWithSnapshot (.error "checkout failed") queriesAfterSwitch =
      (false, gmWithSnapshot) ∧
    switchBranch gmWithSnapshot (.ok ()) queriesAfterSwitch =
      (true, { gmWithSnapshot with repositoryInfo := some (
        { root := "/w", currentBranch := "develop2", remotes := [remoteOrigin]
          lastCommit := commitDemo, status := statusDemo
          isGitRepository := true } : GitRepositoryInfo) }) := by
  have h := switchBranch_spec gmWithSnapshot queriesAfterSwitch rfl
  exact ⟨h.1 "checkout failed", by rw [h.2]; rfl⟩

/-- C10: every record produced by the Bitbucket normalization has
`isDraft = false`, whatever the response contained. -/
theorem bitbucket_never_draft (hostInfo : RepositoryHostInfo)
    (branches : List String) (response : Option (List BitbucketPR))
    (pr : PullRequest)
    (h : pr ∈ getBitbucketPullRequests hostInfo branches response) :
    pr.isDraft = false := by
  cases response with
  | none => simp [getBitbucketPullRequests] at h
  | some values =>
    simp only [getBitbucketPullRequests, List.mem_map] at h
    obtain ⟨raw, _, rfl⟩ := h
    rfl

/-- C10 witness: the concrete Bitbucket element normalizes with
`isDraft = false`. -/
theorem bitbucket_never_draft_witness : bbDemoNormalized.isDraft = false :=
  bitbucket_never_draft hostBB ["develop"] (some [bbDemo]) bbDemoNormalized
    (by decide)

/-- C3: a decoded value failing the object check yields `none`; an
object-like value always coerces to a complete record in which each
missing or wrongly-typed field receives its documented default.  (The
object check is the source's `config && typeof config === 'object'`.) -/
theorem validateConfig_total_defaults (v : JValue) :
    (isObjLike v = false → validateConfig v = none) ∧
    (isObjLike v = true → ∃ r, validateConfig v = some r ∧
      ((∀ s, getField v "name" ≠ some (JValue.str s)) →
        r.name = "Default Environment") ∧
      ((∀ s, getField v "version" ≠ some (JValue.str s)) → r.version = "1.0.0") ∧
      ((∀ s, getField v "environment" ≠ some (JValue.str s)) →
        r.environment = "development") ∧
      ((∀ xs, getField v "tools" ≠ some (JValue.arr xs)) → r.tools = []) ∧
      ((∀ w, getField v "settings" = some w → isObjLike w = false) →
        r.settings = JValue.obj [])) := by
  constructor
  · intro h
    simp [validateConfig, h]
  · intro h
    unfold validateConfig
    rw [h]
    simp only [Bool.not_true, Bool.false_eq_true, if_false]
    refine ⟨_, rfl, ?_, ?_, ?_, ?_, ?_⟩
    · intro hn
      cases hg : getField v "name" with
      | none => rfl
      | some w =>
        cases w with
        | str s => exact absurd hg (hn s)
        | null => rfl
        | bool b => rfl
        | num n => rfl
        | arr xs => rfl
        | obj fs => rfl
    · intro hn
      cases hg : getField v "version" with
      | none => rfl
      | some w =>
        cases w with
        | str s => exact absurd hg (hn s)
        | null => rfl
        | bool b => rfl
        | num n => rfl
        | arr xs => rfl
        | obj fs => rfl
    · intro hn
      cases hg : getField v "environment" with
      | none => rfl
      | some w =>
        cases w with
        | str s => exact absurd hg (hn s)
        | null => rfl
        | bool b => rfl
        | num n => rfl
        | arr xs => rfl
        | obj fs => rfl
    · intro hn
      cases hg : getField v "tools" with
      | none => rfl
      | some w =>
        cases w with
        | arr xs => exact absurd hg (hn xs)
        | null => rfl
        | bool b => rfl
        | num n => rfl
        | str s => rfl
        | obj fs => rfl
    · intro hs
      cases hg : getField v "settings" with
      | none => rfl
      | some w =>
        have hw := hs w hg
        simp [hw]

/-- C3 witness: an object with only a name coerces to a fully-populated
record with defaulted version, environment, tools and settings. -/
theorem validateConfig_total_defaults_witness :
    ∃ r, validateConfig vNameOnly = some r ∧
      r.name = "Foo" ∧ r.version = "1.0.0" ∧ r.environment = "development" ∧
      r.tools = [] ∧ r.settings = JValue.obj [] := by
  obtain ⟨r, hr, -⟩ := (validateConfig_total_defaults vNameOnly).2 rfl
  have hrec : r = ⟨"Foo", "1.0.0", "development", [], JValue.obj []⟩ :=
    Option.some.inj (hr.symm.trans rfl)
  exact ⟨r, hr, by rw [hrec], by rw [hrec], by rw [hrec], by rw [hrec],
    by rw [hrec]⟩

/-- Every pass of the discovery loop probes its candidate path on disk
before moving on, so the first candidate is always among the probes. -/
theorem searchConfigFiles_probes_first (fs : FileSystem) (wp f : String)
    (rest : List String) :
    pathJoin wp f ∈ (searchConfigFiles fs wp (f :: rest)).2 := by
  cases hfe : fs.fileExists (pathJoin wp f) with
  | false => simp [searchConfigFiles, hfe]
  | true =>
    cases hl : loadConfigFromPath fs (pathJoin wp f) with
    | none => simp [searchConfigFiles, hfe, hl]
    | some c => simp [searchConfigFiles, hfe, hl]

/-- C7: with a fresh cached entry, a load is served from the cache with
no disk probes; after `clearCache` the same load ignores any prior cache
state, walks the on-disk candidate list (its result and probe trace are
those of the disk search), and in particular probes `<wp>/den.yml` —
even inside the TTL window. -/
theorem clearCache_forces_disk (st : ConfigManagerState) (fs : FileSystem)
    (now : Nat) (wp : String) (entry : CacheEntry)
    (hc : cacheGet st.configCache ("workspace:" ++ wp) = some entry)
    (hfresh : now - entry.timestamp < cacheTimeout) :
    findConfigInWorkspace st fs now wp = (some entry.config, st, []) ∧
    (findConfigInWorkspace (clearCache st) fs now wp).1 =
      (searchConfigFiles fs wp configFileNames).1 ∧
    (findConfigInWorkspace (clearCache st) fs now wp).2.2 =
      (searchConfigFiles fs wp configFileNames).2 ∧
    pathJoin wp "den.yml" ∈ (findConfigInWorkspace (clearCache st) fs now wp).2.2 := by
  have h1 : findConfigInWorkspace st fs now wp = (some entry.config, st, []) := by
    simp only [findConfigInWorkspace]
    rw [hc]
    simp [hfresh]
  rcases hsf : searchConfigFiles fs wp configFileNames with ⟨res, probes⟩
  have hclear : cacheGet (clearCache st).configCache ("workspace:" ++ wp) = none := rfl
  have hpost : (findConfigInWorkspace (clearCache st) fs now wp).1 = res ∧
      (findConfigInWorkspace (clearCache st) fs now wp).2.2 = probes := by
    cases res with
    | none => simp [findConfigInWorkspace, clearCache, cacheGet, hsf]
    | some c => simp [findConfigInWorkspace, clearCache, cacheGet, hsf]
  have hmem : pathJoin wp "den.yml" ∈ (searchConfigFiles fs wp configFileNames).2 :=
    searchConfigFiles_probes_first fs wp "den.yml"
      ["den.yaml", "den.json", ".den.yml", ".den.yaml", ".den.json"]
  rw [hsf] at hmem
  refine ⟨h1, ?_, ?_, ?_⟩
  · rw [hpost.1]
  · rw [hpost.2]
  · rw [hpost.2]
    exact hmem

/-- C7 witness: the concrete cached manager is served from cache at time
1000 (entry from 990, TTL 30000), and after `clearCache` the same load
probes `/w/den.yml` on disk. -/
theorem clearCache_forces_disk_witness :
    findConfigInWorkspace stCached fsDemo 1000 "/w" =
      (some entryDemo.config, stCached, []) ∧
    pathJoin "/w" "den.yml" ∈
      (findConfigInWorkspace (clearCache stCached) fsDemo 1000 "/w").2.2 := by
  have h := clearCache_forces_disk stCached fsDemo 1000 "/w" entryDemo rfl
    (by decide)
  exact ⟨h.1, h.2.2.2⟩

end Den
